import Mathlib

/-!
Shallow embedding of the sosw Task Lifecycle & Lease Manager
(`sosw/managers/task.py`): tasks, labourers, the store operations the
manager performs, and the scheduling arithmetic.  Store and `Labourer`
capabilities that are not part of the sources are modelled from the spec
and carry a doc comment saying so.
-/

namespace Sosw

/-- A task row of the hot table (`sosw_tasks`).  Fields follow the
`row_mapper` of `TaskManager.DEFAULT_CONFIG`; `Option` fields model
attributes that may be absent from an item.  `labourer_id_task_status`
is the derived field written by `archive_task`. -/
structure Task where
  task_id : String
  labourer_id : String
  created_at : Int := 0
  greenfield : Int
  attempts : Int := 0
  closed_at : Option Int := none
  completed : Option Int := none
  completed_at : Option Int := none
  payload : String := ""
  labourer_id_task_status : Option String := none
deriving Repr, DecidableEq

/-- Modelled from the spec: the `Labourer` class (`sosw/labourer.py`) is not
part of the sources.  Spec §3 gives its static attributes (`id`, the
invocation target `arn`, `max_duration` — written `x.duration` in
`register_labourers` and `labourer.max_duration` in the retry
calculation — and `cooldown`) and per-cycle custom attributes, held here
in an association list written by `set_custom_attribute` and read by
`get_attr` (newest binding first, so re-setting overwrites). -/
structure Labourer where
  id : String
  arn : String := ""
  max_duration : Int := 0
  cooldown : Int := 0
  attrs : List (String × Int) := []
deriving Repr, DecidableEq

def Labourer.get_attr (l : Labourer) (k : String) : Int :=
  (l.attrs.lookup k).getD 0

def Labourer.set_custom_attribute (l : Labourer) (k : String) (v : Int) : Labourer :=
  { l with attrs := (k, v) :: l.attrs }

/-- The slice of `TaskManager.DEFAULT_CONFIG` read by the modelled
operations.  The function fields model the per-labourer overrides
`config.get(f'max_attempts_{x.id}')` and
`config.get(f'min_health_for_retry_{x.id}')`. -/
structure TMConfig where
  greenfield_invocation_delta : Int := 31557600
  max_attempts : Int := 3
  min_health_for_retry : Int := 1
  max_attempts_for : String → Option Int := fun _ => none
  min_health_for_retry_for : String → Option Int := fun _ => none

/-- External ecology capability (spec §6: `Health.Get`,
`Duration.GetAverage`), consulted by `register_labourers`. -/
structure Ecology where
  get_labourer_status : String → Int
  get_labourer_average_duration : String → Int

/-- Python `a or b` for an optional numeric config value: both `None`
and `0` fall through to the default. -/
def falsyOr (o : Option Int) (d : Int) : Int :=
  match o with
  | some v => if v = 0 then d else v
  | none => d

/-- The ordered attribute chain of `TaskManager.register_labourers`.
Each function receives the partially-built labourer, so it can read only
attributes set by earlier entries of the list. -/
def customAttributes (cfg : TMConfig) (eco : Ecology) (now : Int) :
    List (String × (Labourer → Int)) :=
  [("start", fun _ => now),
   ("invoked", fun x => x.get_attr "start" + cfg.greenfield_invocation_delta),
   ("expired", fun x => x.get_attr "invoked" - (x.max_duration + x.cooldown)),
   ("health", fun x => eco.get_labourer_status x.id),
   ("max_attempts", fun x => falsyOr (cfg.max_attempts_for x.id) cfg.max_attempts),
   ("min_health_for_retry",
      fun x => falsyOr (cfg.min_health_for_retry_for x.id) cfg.min_health_for_retry),
   ("average_duration", fun x => eco.get_labourer_average_duration x.id)]

/-- One labourer's pass of `TaskManager.register_labourers`: the
attribute chain is applied in order against the accumulating labourer. -/
def registerLabourer (cfg : TMConfig) (eco : Ecology) (now : Int) (l : Labourer) : Labourer :=
  (customAttributes cfg eco now).foldl
    (fun acc kv => acc.set_custom_attribute kv.1 (kv.2 acc)) l

/-- `TaskManager.register_labourers` over the configured labourers. -/
def register_labourers (cfg : TMConfig) (eco : Ecology) (now : Int)
    (labourers : List Labourer) : List Labourer :=
  labourers.map (registerLabourer cfg eco now)

/-- Python exception classes observed by the modelled operations.
`conditionalCheckFailed` stands for the store's
`ConditionalCheckFailedException`. -/
inductive PyErr where
  | attributeError
  | assertionError
  | typeError
  | conditionalCheckFailed
  | runtimeError
deriving Repr, DecidableEq

/-- A store write, recorded so that the order of `put` and `delete` in
`archive_task` is observable. -/
inductive StoreOp where
  | putClosed (row : Task)
  | deleteTask (labourer_id task_id : String)
deriving Repr, DecidableEq

/-- State touched by the `TaskManager`: the hot table, the
`sosw_closed_tasks` archive table, the
`stats['concurrent_task_invocations_skipped']` counter, and the
fire-and-forget worker invocations issued so far (target arn, payload). -/
structure TMState where
  tasks : List Task
  closed_tasks : List Task := []
  stats_concurrent_skipped : Nat := 0
  invocations : List (String × String) := []
deriving Repr, DecidableEq

/-- Queue comparison used by the `greenfield` index. -/
def gfLe (a b : Task) : Prop := a.greenfield ≤ b.greenfield

instance : DecidableRel gfLe := fun a b => Int.decLe a.greenfield b.greenfield

instance : IsTotal Task gfLe := ⟨fun a b => Int.le_total a.greenfield b.greenfield⟩

instance : IsTrans Task gfLe := ⟨fun _ _ _ h h' => le_trans h h'⟩

/-- Modelled from the spec: the DynamoDB client
(`sosw/components/dynamo_db.py`) is not part of the sources; spec §6
specifies `Store.Query` as returning rows ascending by `greenfield`, so
the modelled range queries sort their results by `greenfield`. -/
def sortByGreenfield (l : List Task) : List Task := l.insertionSort gfLe

/-- Modelled from the spec: `get_by_query` with a `<` comparison on the
`greenfield` index key and `max_items`, as issued by
`TaskManager.get_next_for_labourer`. -/
def getByQueryGreenfieldLess (tasks : List Task) (lid : String) (maxGf : Int)
    (maxItems : Nat) : List Task :=
  (sortByGreenfield (tasks.filter
    (fun t => t.labourer_id == lid && decide (t.greenfield < maxGf)))).take maxItems

/-- `TaskManager.get_next_for_labourer`: query tasks of the labourer
with `greenfield` below `labourer.get_attr('start')`, limited to `cnt`,
and return their `task_id`s. -/
def get_next_for_labourer (tasks : List Task) (l : Labourer) (cnt : Nat) : List String :=
  (getByQueryGreenfieldLess tasks l.id (l.get_attr "start") cnt).map Task.task_id

/-- Modelled from the spec: `get_by_query` with a `BETWEEN` condition on
the `greenfield` index key (the `st_between_` / `en_between_` arguments)
and the `attribute_not_exists closed` filter; a `BETWEEN` is inclusive
at both ends. -/
def getByQueryGreenfieldBetween (tasks : List Task) (lid : String) (lo hi : Int) :
    List Task :=
  sortByGreenfield (tasks.filter (fun t =>
    t.labourer_id == lid && decide (lo ≤ t.greenfield) && decide (t.greenfield ≤ hi)
      && t.closed_at.isNone))

/-- `TaskManager.get_expired_tasks_for_labourer`: a between-query from
`labourer.get_attr('start')` to `labourer.get_attr('expired')` filtered
to rows without `closed_at`. -/
def get_expired_tasks_for_labourer (tasks : List Task) (l : Labourer) : List Task :=
  getByQueryGreenfieldBetween tasks l.id (l.get_attr "start") (l.get_attr "expired")

/-- `TaskManager.get_task_by_id`: an equality query on the `task_id`
field, returning the first row or `None`.  The argument is optional
because `invoke_task` forwards its possibly-absent `task_id` argument
verbatim. -/
def getTaskById (tasks : List Task) (task_id : Option String) : Option Task :=
  (tasks.filter (fun t => task_id == some t.task_id)).head?

/-- Modelled from the spec: `Store.ConditionalUpdate` (spec §6), as
called by `mark_task_invoked` — a single atomic conditional write that
sets `greenfield`, increments `attempts` by 1, and fails with the
condition-check error (leaving the row unchanged) when the stored
`greenfield` is not below `startBound`. -/
def condUpdateInvoke (tasks : List Task) (tid lid : String) (newGf startBound : Int) :
    Except PyErr (List Task) :=
  match tasks.find? (fun u => u.task_id == tid && u.labourer_id == lid) with
  | none => .error .conditionalCheckFailed
  | some row =>
    if row.greenfield < startBound then
      .ok (tasks.map (fun u =>
        if u.task_id == tid && u.labourer_id == lid then
          { u with greenfield := newGf, attempts := u.attempts + 1 }
        else u))
    else .error .conditionalCheckFailed

/-- `TaskManager.mark_task_invoked`: asserts that the task belongs to
the labourer, then issues the conditional update with
`greenfield := now + greenfield_invocation_delta` under the condition
`greenfield < labourer.get_attr('start')`. -/
def mark_task_invoked (cfg : TMConfig) (tasks : List Task) (l : Labourer)
    (task : Task) (now : Int) : Except PyErr (List Task) :=
  if l.id == task.labourer_id then
    condUpdateInvoke tasks task.task_id l.id
      (now + cfg.greenfield_invocation_delta) (l.get_attr "start")
  else .error .assertionError

/-- `TaskManager.invoke_task`: checks that exactly one of `task` /
`task_id` was given, fetches the task by `task_id`, marks it invoked,
converts a condition-check failure into a counted skip, re-raises every
other failure as `RuntimeError`, and otherwise fires the worker
invocation.  A missing lookup result makes `mark_task_invoked`
subscript `None` (a `TypeError`), re-raised as `RuntimeError`. -/
def invoke_task (cfg : TMConfig) (st : TMState) (l : Labourer) (now : Int)
    (task_id : Option String) (task : Option Task) : Except PyErr TMState :=
  if (task.isNone && task_id.isNone) || (task.isSome && task_id.isSome) then
    .error .attributeError
  else
    match getTaskById st.tasks task_id with
    | none => .error .runtimeError
    | some t =>
      match mark_task_invoked cfg st.tasks l t now with
      | .error .conditionalCheckFailed =>
        .ok { st with stats_concurrent_skipped := st.stats_concurrent_skipped + 1 }
      | .error _ => .error .runtimeError
      | .ok tasks' =>
        .ok { st with tasks := tasks', invocations := st.invocations ++ [(l.arn, t.payload)] }

/-- `TaskManager.close_task`: an unconditional update setting
`closed_at` and the `completed` flag on the addressed row. -/
def close_task (tasks : List Task) (tid lid : String) (now : Int) (completed : Bool) :
    List Task :=
  tasks.map (fun u =>
    if u.task_id == tid && u.labourer_id == lid then
      { u with closed_at := some now, completed := some (if completed then 1 else 0) }
    else u)

/-- The Python truthiness test `1 if task.get('completed_at') else 0`
performed by `archive_task` on the optional `completed_at` attribute. -/
def completedAtFlag (c : Option Int) : Int :=
  match c with
  | some v => if v = 0 then 0 else 1
  | none => 0

/-- The row `archive_task` writes to the archive table: the task
extended with the derived `labourer_id_task_status` field. -/
def archRow (t : Task) : Task :=
  { t with
      labourer_id_task_status :=
        some (t.labourer_id ++ "_" ++ toString (completedAtFlag t.completed_at)) }

/-- Modelled from the spec: `Store.Put` into the archive table (spec §6)
overwrites by the table's key, so re-putting a row with an existing
`task_id` replaces it rather than duplicating it. -/
def putByTaskId (table : List Task) (row : Task) : List Task :=
  if table.any (fun u => u.task_id == row.task_id) then
    table.map (fun u => if u.task_id == row.task_id then row else u)
  else table ++ [row]

/-- `TaskManager.archive_task`: fetches the task, derives
`labourer_id_task_status`, puts the row into `sosw_closed_tasks`, then
deletes it from the hot table, reporting the two writes in order.  When
the lookup returns `None`, the following `task.get(...)` attribute
access raises. -/
def archive_task (st : TMState) (task_id : String) :
    Except PyErr (TMState × List StoreOp) :=
  match getTaskById st.tasks (some task_id) with
  | none => .error .attributeError
  | some task =>
    let row := archRow task
    .ok ({ st with
            closed_tasks := putByTaskId st.closed_tasks row,
            tasks := st.tasks.filter (fun u =>
              !(u.labourer_id == task.labourer_id && u.task_id == task.task_id)) },
         [StoreOp.putClosed row, StoreOp.deleteTask task.labourer_id task.task_id])

/-- The ascending queue of a labourer: tasks with
`greenfield < labourer.get_attr('start')` (spec §4.4). -/
def queuedTasksForLabourer (tasks : List Task) (l : Labourer) : List Task :=
  sortByGreenfield (tasks.filter
    (fun t => t.labourer_id == l.id && decide (t.greenfield < l.get_attr "start")))

/-- Modelled from the spec: `get_length_of_queue_for_labourer` is
declared but left unimplemented in the source; spec §4.4 defines it as
the count of currently queued tasks of the labourer. -/
def get_length_of_queue_for_labourer (tasks : List Task) (l : Labourer) : Int :=
  (queuedTasksForLabourer tasks l).length

/-- Modelled from the spec: `get_queued_task_for_labourer_in_position`
is declared but left unimplemented in the source; spec §4.4 specifies
the task occupying the given position of the ascending queued order
(positions counted from 1), and its empty-queue edge case requires no
task when the position is unoccupied. -/
def get_queued_task_for_labourer_in_position (tasks : List Task) (l : Labourer)
    (position : Int) : Option Task :=
  if position < 1 then none
  else (queuedTasksForLabourer tasks l)[position.toNat - 1]?

/-- `math.ceil` of the exact quotient `a / b` for a positive divisor,
as computed by `calculate_greenfield_for_retry_task_with_delay`. -/
def ceilDiv (a b : Int) : Int := -((-a).fdiv b)

/-- `TaskManager.calculate_greenfield_for_retry_task_with_delay`.  The
labourer comes from the call context (`labourer = None  # OR receive
from call arguments` in the source); the unimplemented queue helpers
follow their spec-modelled definitions above.  The `task` argument is
unused, as in the source. -/
def calculate_greenfield_for_retry_task_with_delay (tasks : List Task) (l : Labourer)
    (now : Int) (task : Task) (delay : Int) : Int :=
  let queue_length := get_length_of_queue_for_labourer tasks l
  let wanted_delay := l.max_duration * delay
  if wanted_delay > queue_length * l.get_attr "average_duration" then
    now + wanted_delay
  else
    let wanted_position := ceilDiv wanted_delay (l.get_attr "average_duration")
    match get_queued_task_for_labourer_in_position tasks l wanted_position with
    | some target => target.greenfield - 1
    | none => now + wanted_delay

/-! Concrete sample data used by closed statements below. -/

/-- The default configuration (`DEFAULT_CONFIG` constants). -/
def cfgSample : TMConfig := { }

/-- A concrete ecology client: every labourer healthy with health `1`
and average task duration `60`. -/
def ecoSample : Ecology := ⟨fun _ => 1, fun _ => 60⟩

/-- The labourer of the spec's lease-window example:
`max_duration = 300`, `cooldown = 60`. -/
def rawSample : Labourer :=
  { id := "some_lambda", arn := "arn1", max_duration := 300, cooldown := 60 }

/-- `rawSample` registered at cycle start `1000` under the default
configuration. -/
def regSample : Labourer := registerLabourer cfgSample ecoSample 1000 rawSample

/-- An unclosed task of `regSample`'s labourer whose `greenfield` lies
strictly between the registered `expired` and `invoked` boundaries. -/
def taskC6 : Task := { task_id := "t6", labourer_id := "some_lambda", greenfield := 31558400 }

/-- A freshly invoked task, before being closed. -/
def t8base : Task :=
  { task_id := "t8", labourer_id := "lambda1", greenfield := 31558300, attempts := 1 }

/-- `t8base` after `close_task(.., completed=True)` at time `500`:
`closed_at` and `completed` are set but `completed_at` is not. -/
def taskC8 : Task :=
  { task_id := "t8", labourer_id := "lambda1", greenfield := 31558300, attempts := 1,
    closed_at := some 500, completed := some 1 }

/-- A hot table without the task being archived. -/
def stEmpty : TMState := { tasks := [] }

end Sosw

namespace Sosw

/-- Claim C4: `register_labourers` computes the labourer attributes by
the fixed ordered chain, so `start` is the cycle time, `invoked` equals
`start + greenfield_invocation_delta`, `expired` equals
`invoked - (max_duration + cooldown)`, and the remaining attributes come
from the ecology client and the (per-labourer or global) configuration;
in particular `start = 1000`, horizon `31557600`, `max_duration = 300`,
`cooldown = 60` yield `invoked = 31558600` and `expired = 31558240`. -/
theorem register_labourers_attribute_chain (cfg : TMConfig) (eco : Ecology) (now : Int)
    (l : Labourer) :
    (register_labourers cfg eco now [l] = [registerLabourer cfg eco now l] ∧
     (registerLabourer cfg eco now l).get_attr "start" = now ∧
     (registerLabourer cfg eco now l).get_attr "invoked"
       = (registerLabourer cfg eco now l).get_attr "start"
           + cfg.greenfield_invocation_delta ∧
     (registerLabourer cfg eco now l).get_attr "expired"
       = (registerLabourer cfg eco now l).get_attr "invoked"
           - (l.max_duration + l.cooldown) ∧
     (registerLabourer cfg eco now l).get_attr "health" = eco.get_labourer_status l.id ∧
     (registerLabourer cfg eco now l).get_attr "max_attempts"
       = falsyOr (cfg.max_attempts_for l.id) cfg.max_attempts ∧
     (registerLabourer cfg eco now l).get_attr "min_health_for_retry"
       = falsyOr (cfg.min_health_for_retry_for l.id) cfg.min_health_for_retry ∧
     (registerLabourer cfg eco now l).get_attr "average_duration"
       = eco.get_labourer_average_duration l.id) ∧
    (regSample.get_attr "invoked" = 31558600 ∧ regSample.get_attr "expired" = 31558240) :=
  ⟨⟨rfl, rfl, rfl, rfl, rfl, rfl, rfl, rfl⟩, by decide⟩

/-- Claim C5 counterexample: under the default configuration (horizon
`31557600 > 300 + 60`) the labourer registered at `start = 1000` has
`expired = 31558240`, which is not below `start` — the claimed invariant
`expired < start` fails. -/
theorem register_labourers_expired_not_lt_start :
    rawSample.max_duration + rawSample.cooldown < cfgSample.greenfield_invocation_delta ∧
    regSample.get_attr "start" = 1000 ∧
    regSample.get_attr "expired" = 31558240 ∧
    ¬ regSample.get_attr "expired" < regSample.get_attr "start" := by decide

/-- Claim C5 (amended): for every labourer produced by
`register_labourers` under a configuration with
`invocation_horizon > max_duration + cooldown` (and a positive
`max_duration + cooldown`), the boundaries satisfy
`start < expired < invoked`. -/
theorem register_labourers_start_lt_expired_lt_invoked (cfg : TMConfig) (eco : Ecology)
    (now : Int) (l : Labourer)
    (h1 : l.max_duration + l.cooldown < cfg.greenfield_invocation_delta)
    (h2 : 0 < l.max_duration + l.cooldown) :
    (registerLabourer cfg eco now l).get_attr "start"
        < (registerLabourer cfg eco now l).get_attr "expired" ∧
    (registerLabourer cfg eco now l).get_attr "expired"
        < (registerLabourer cfg eco now l).get_attr "invoked" := by
  have hs : (registerLabourer cfg eco now l).get_attr "start" = now := rfl
  have he : (registerLabourer cfg eco now l).get_attr "expired"
      = now + cfg.greenfield_invocation_delta - (l.max_duration + l.cooldown) := rfl
  have hi : (registerLabourer cfg eco now l).get_attr "invoked"
      = now + cfg.greenfield_invocation_delta := rfl
  rw [hs, he, hi]
  omega

/-- Witness for C5 (amended) at the default configuration and the
spec's example labourer. -/
theorem register_labourers_start_lt_expired_lt_invoked_witness :
    regSample.get_attr "start" < regSample.get_attr "expired" ∧
    regSample.get_attr "expired" < regSample.get_attr "invoked" :=
  register_labourers_start_lt_expired_lt_invoked cfgSample ecoSample 1000 rawSample
    (by decide) (by decide)

/-- The conditional update leaves the key fields of every row in place,
so the first row matching the key in the updated table is the updated
image of the first match in the original table. -/
theorem find?_map_condUpdate (tid lid : String) (newGf : Int) :
    ∀ (tasks : List Task) (t : Task),
      tasks.find? (fun u => u.task_id == tid && u.labourer_id == lid) = some t →
      (tasks.map (fun u =>
          if u.task_id == tid && u.labourer_id == lid then
            { u with greenfield := newGf, attempts := u.attempts + 1 }
          else u)).find? (fun u => u.task_id == tid && u.labourer_id == lid)
        = some { t with greenfield := newGf, attempts := t.attempts + 1 }
  | [], t, h => by simp [List.find?] at h
  | a :: rest, t, h => by
    by_cases hp : (a.task_id == tid && a.labourer_id == lid) = true
    · rw [List.find?_cons_of_pos rest hp] at h
      injection h with h
      subst h
      simp only [List.map_cons, if_pos hp]
      exact List.find?_cons_of_pos _ hp
    · rw [List.find?_cons_of_neg rest (by simpa using hp)] at h
      simp only [List.map_cons, if_neg hp]
      rw [List.find?_cons_of_neg _ (by simpa using hp)]
      exact find?_map_condUpdate tid lid newGf rest t h

/-- Rows that do not match the key are untouched by the conditional
update: membership in the table is preserved in both directions. -/
theorem mem_map_condUpdate_iff (tid lid : String) (newGf : Int) (tasks : List Task)
    (u : Task) (hu : ¬(u.task_id = tid ∧ u.labourer_id = lid)) :
    u ∈ tasks ↔ u ∈ tasks.map (fun v =>
      if v.task_id == tid && v.labourer_id == lid then
        { v with greenfield := newGf, attempts := v.attempts + 1 }
      else v) := by
  have hself : (if u.task_id == tid && u.labourer_id == lid then
      { u with greenfield := newGf, attempts := u.attempts + 1 } else u) = u := by
    rw [if_neg]
    simpa [Bool.and_eq_true, beq_iff_eq] using hu
  constructor
  · intro h
    exact List.mem_map.mpr ⟨u, h, hself⟩
  · intro h
    rcases List.mem_map.mp h with ⟨v, hv, hvu⟩
    by_cases hp : (v.task_id == tid && v.labourer_id == lid) = true
    · exfalso
      rw [if_pos hp] at hvu
      rcases (by simpa [Bool.and_eq_true, beq_iff_eq] using hp :
        v.task_id = tid ∧ v.labourer_id = lid) with ⟨hv1, hv2⟩
      exact hu ⟨by rw [← hvu]; exact hv1, by rw [← hvu]; exact hv2⟩
    · rw [if_neg hp] at hvu
      rw [← hvu]
      exact hv

/-- Claim C1: `mark_task_invoked` is a single atomic conditional write —
it succeeds iff the stored `greenfield` is below `labourer.start`, in
which case the row gets `greenfield = now + invocation_horizon` and
`attempts` incremented by exactly 1 while other rows are untouched; on a
failed condition nothing changes; and of two invoke attempts on the same
task with the same labourer snapshot exactly one transitions the lease,
so `attempts` grows by exactly 1, not 2. -/
theorem mark_task_invoked_lease_protocol (cfg : TMConfig) (tasks : List Task)
    (l : Labourer) (t : Task) (now now2 : Int)
    (hfind : tasks.find? (fun u => u.task_id == t.task_id && u.labourer_id == l.id)
      = some t)
    (hown : l.id = t.labourer_id) :
    ((∃ tasks', mark_task_invoked cfg tasks l t now = .ok tasks') ↔
        t.greenfield < l.get_attr "start") ∧
    (∀ tasks', mark_task_invoked cfg tasks l t now = .ok tasks' →
      tasks'.find? (fun u => u.task_id == t.task_id && u.labourer_id == l.id)
          = some { t with greenfield := now + cfg.greenfield_invocation_delta,
                          attempts := t.attempts + 1 } ∧
      (∀ u : Task, ¬(u.task_id = t.task_id ∧ u.labourer_id = l.id) →
        (u ∈ tasks ↔ u ∈ tasks'))) ∧
    (¬ t.greenfield < l.get_attr "start" →
      mark_task_invoked cfg tasks l t now = .error .conditionalCheckFailed) ∧
    (t.greenfield < l.get_attr "start" →
      l.get_attr "start" ≤ now + cfg.greenfield_invocation_delta →
      ∀ tasks', mark_task_invoked cfg tasks l t now = .ok tasks' →
        mark_task_invoked cfg tasks' l
            { t with greenfield := now + cfg.greenfield_invocation_delta,
                     attempts := t.attempts + 1 } now2
          = .error .conditionalCheckFailed) := by
  have hbeq : (l.id == t.labourer_id) = true := beq_iff_eq.mpr hown
  have hred : mark_task_invoked cfg tasks l t now
      = condUpdateInvoke tasks t.task_id l.id
          (now + cfg.greenfield_invocation_delta) (l.get_attr "start") := by
    simp [mark_task_invoked, hbeq]
  by_cases hgf : t.greenfield < l.get_attr "start"
  · have hok : mark_task_invoked cfg tasks l t now
        = .ok (tasks.map (fun u =>
            if u.task_id == t.task_id && u.labourer_id == l.id then
              { u with greenfield := now + cfg.greenfield_invocation_delta,
                       attempts := u.attempts + 1 }
            else u)) := by
      rw [hred]
      simp only [condUpdateInvoke, hfind, if_pos hgf]
    refine ⟨⟨fun _ => hgf, fun _ => ⟨_, hok⟩⟩, ?_, fun hn => absurd hgf hn, ?_⟩
    · intro tasks' h
      rw [hok] at h
      injection h with h
      subst h
      exact ⟨find?_map_condUpdate t.task_id l.id _ tasks t hfind,
        fun u hu => mem_map_condUpdate_iff t.task_id l.id _ tasks u hu⟩
    · intro _ hstart tasks' h
      rw [hok] at h
      injection h with h
      subst h
      have hfind' := find?_map_condUpdate t.task_id l.id
        (now + cfg.greenfield_invocation_delta) tasks t hfind
      have hred2 : mark_task_invoked cfg
          (tasks.map (fun u =>
            if u.task_id == t.task_id && u.labourer_id == l.id then
              { u with greenfield := now + cfg.greenfield_invocation_delta,
                       attempts := u.attempts + 1 }
            else u)) l
          { t with greenfield := now + cfg.greenfield_invocation_delta,
                   attempts := t.attempts + 1 } now2
          = condUpdateInvoke
              (tasks.map (fun u =>
                if u.task_id == t.task_id && u.labourer_id == l.id then
                  { u with greenfield := now + cfg.greenfield_invocation_delta,
                           attempts := u.attempts + 1 }
                else u))
              t.task_id l.id (now2 + cfg.greenfield_invocation_delta)
              (l.get_attr "start") := by
        simp [mark_task_invoked, hbeq]
      rw [hred2]
      simp only [condUpdateInvoke, hfind']
      rw [if_neg (by simpa using not_lt.mpr hstart)]
  · have herr : mark_task_invoked cfg tasks l t now = .error .conditionalCheckFailed := by
      rw [hred]
      simp only [condUpdateInvoke, hfind, if_neg hgf]
    refine ⟨⟨?_, fun h => absurd h hgf⟩, ?_, fun _ => herr, ?_⟩
    · rintro ⟨tasks', h⟩
      rw [herr] at h
      exact absurd h (by simp)
    · intro tasks' h
      rw [herr] at h
      exact absurd h (by simp)
    · intro h
      exact absurd h hgf

/-- A labourer snapshot with `start = 1000`, and a queued task of it. -/
def lW1 : Labourer := { id := "w1", arn := "arnW", attrs := [("start", 1000)] }

/-- A queued task of `lW1` (greenfield `50 < 1000`). -/
def taskW1 : Task := { task_id := "tw1", labourer_id := "w1", greenfield := 50 }

/-- Witness for C1: at a concrete queued task, the first invoke attempt
succeeds and the immediate second attempt with the same labourer
snapshot fails the condition check. -/
theorem mark_task_invoked_lease_protocol_witness :
    mark_task_invoked cfgSample
        [{ taskW1 with greenfield := 1500 + cfgSample.greenfield_invocation_delta,
                       attempts := taskW1.attempts + 1 }] lW1
        { taskW1 with greenfield := 1500 + cfgSample.greenfield_invocation_delta,
                      attempts := taskW1.attempts + 1 } 1600
      = .error .conditionalCheckFailed :=
  (mark_task_invoked_lease_protocol cfgSample [taskW1] lW1 taskW1 1500 1600
      (by decide) rfl).2.2.2 (by decide) (by decide) _ (by rfl)

/-- A `task_id` of `None` matches no row: the lookup query returns no
task. -/
theorem getTaskById_none : ∀ tasks : List Task, getTaskById tasks none = none
  | [] => rfl
  | a :: rest => by
    have ih := getTaskById_none rest
    have hfa : ((none : Option String) == some a.task_id) = false := rfl
    simp only [getTaskById, List.filter_cons, hfa] at ih ⊢
    exact ih

/-- Claim C2: when the conditional lease update of `invoke_task` fails
with the condition-check error, the call counts a concurrent-invocation
skip and returns normally with the table and the invocation log
untouched; when the lease update fails for any other reason the call
raises `RuntimeError`. -/
theorem invoke_task_error_handling (cfg : TMConfig) (st : TMState) (l : Labourer)
    (now : Int) (tid : String) (t : Task)
    (hfind : getTaskById st.tasks (some tid) = some t) :
    (mark_task_invoked cfg st.tasks l t now = .error .conditionalCheckFailed →
      invoke_task cfg st l now (some tid) none =
        .ok { st with stats_concurrent_skipped := st.stats_concurrent_skipped + 1 }) ∧
    (∀ e : PyErr, e ≠ .conditionalCheckFailed →
      mark_task_invoked cfg st.tasks l t now = .error e →
      invoke_task cfg st l now (some tid) none = .error .runtimeError) := by
  constructor
  · intro hmark
    simp [invoke_task, hfind, hmark]
  · intro e hne hmark
    cases e with
    | conditionalCheckFailed => exact absurd rfl hne
    | attributeError => simp [invoke_task, hfind, hmark]
    | assertionError => simp [invoke_task, hfind, hmark]
    | typeError => simp [invoke_task, hfind, hmark]
    | runtimeError => simp [invoke_task, hfind, hmark]

/-- A task of `lW1`'s labourer already in the leased regime
(`greenfield = 2000`, not below `start = 1000`). -/
def taskW2 : Task := { task_id := "tw2", labourer_id := "w1", greenfield := 2000 }

/-- The manager state holding only `taskW2`. -/
def stW2 : TMState := { tasks := [taskW2] }

/-- Witness for C2: invoking the already-leased `taskW2` is a counted
benign skip returning normally. -/
theorem invoke_task_error_handling_witness :
    invoke_task cfgSample stW2 lW1 1500 (some "tw2") none =
      .ok { stW2 with stats_concurrent_skipped := stW2.stats_concurrent_skipped + 1 } :=
  (invoke_task_error_handling cfgSample stW2 lW1 1500 "tw2" taskW2 (by decide)).1 (by rfl)

/-- Claim C10: `invoke_task` always operates on the result of
`get_task_by_id(task_id)`, discarding a caller-supplied `task`: a call
with only `task` passes the exactly-one-argument check (it is not an
`AttributeError`), performs the lookup with `task_id = None`, which
matches nothing, and therefore fails with `RuntimeError` no matter how
invocable the supplied task is. -/
theorem invoke_task_discards_task_argument (cfg : TMConfig) (st : TMState)
    (l : Labourer) (now : Int) (t : Task) :
    getTaskById st.tasks none = none ∧
    invoke_task cfg st l now none (some t) = .error .runtimeError ∧
    invoke_task cfg st l now none (some t) ≠ .error .attributeError := by
  refine ⟨getTaskById_none st.tasks, ?_, ?_⟩
  · simp [invoke_task, getTaskById_none st.tasks]
  · simp [invoke_task, getTaskById_none st.tasks]

/-- Witness for C10: even with a perfectly invocable task supplied as
the `task` argument, the call fails with `RuntimeError` because it
proceeds with the empty `task_id = None` lookup instead. -/
theorem invoke_task_discards_task_argument_witness :
    invoke_task cfgSample stW2 lW1 1500 none (some taskW2) = .error .runtimeError :=
  (invoke_task_discards_task_argument cfgSample stW2 lW1 1500 taskW2).2.1

/-- Claim C3: `get_next_for_labourer` returns the `task_id`s of at most
`cnt` tasks of the labourer with `greenfield < labourer.start`, taken
from the ascending `greenfield` order of the queue; when the queued
tasks have pairwise distinct `greenfield` values the served order is
strictly ascending, so a task with a smaller `greenfield` is never
returned after one with a larger `greenfield`. -/
theorem get_next_for_labourer_ordered (tasks : List Task) (l : Labourer) (cnt : Nat) :
    (get_next_for_labourer tasks l cnt).length ≤ cnt ∧
    (∀ tid ∈ get_next_for_labourer tasks l cnt,
      ∃ t, t ∈ tasks ∧ t.task_id = tid ∧ t.labourer_id = l.id ∧
        t.greenfield < l.get_attr "start") ∧
    get_next_for_labourer tasks l cnt
      = ((queuedTasksForLabourer tasks l).take cnt).map Task.task_id ∧
    ((queuedTasksForLabourer tasks l).take cnt).Sorted gfLe ∧
    ((tasks.filter (fun t => t.labourer_id == l.id &&
        decide (t.greenfield < l.get_attr "start"))).Pairwise
          (fun a b => a.greenfield ≠ b.greenfield) →
      ((queuedTasksForLabourer tasks l).take cnt).Sorted
        (fun a b => a.greenfield < b.greenfield)) := by
  have hperm : List.Perm (queuedTasksForLabourer tasks l)
      (tasks.filter (fun t => t.labourer_id == l.id &&
        decide (t.greenfield < l.get_attr "start"))) :=
    List.perm_insertionSort gfLe _
  have hsorted : (queuedTasksForLabourer tasks l).Sorted gfLe :=
    List.sorted_insertionSort gfLe _
  have hsorted_take : ((queuedTasksForLabourer tasks l).take cnt).Sorted gfLe :=
    List.Pairwise.sublist (List.take_sublist cnt _) hsorted
  refine ⟨?_, ?_, rfl, hsorted_take, ?_⟩
  · simp [get_next_for_labourer, getByQueryGreenfieldLess, List.length_take_le]
  · intro tid htid
    rcases List.mem_map.mp htid with ⟨t, ht, rfl⟩
    have ht2 : t ∈ tasks.filter (fun t => t.labourer_id == l.id &&
        decide (t.greenfield < l.get_attr "start")) :=
      hperm.mem_iff.mp (List.mem_of_mem_take ht)
    rcases List.mem_filter.mp ht2 with ⟨hmem, hpred⟩
    rcases (by simpa [Bool.and_eq_true, beq_iff_eq] using hpred :
      t.labourer_id = l.id ∧ t.greenfield < l.get_attr "start") with ⟨h1, h2⟩
    exact ⟨t, hmem, rfl, h1, h2⟩
  · intro hdist
    have hdist' : (queuedTasksForLabourer tasks l).Pairwise
        (fun a b => a.greenfield ≠ b.greenfield) :=
      (hperm.pairwise_iff (fun h => h.symm)).mpr hdist
    have hlt : (queuedTasksForLabourer tasks l).Pairwise
        (fun a b => a.greenfield < b.greenfield) :=
      (hsorted.and hdist').imp (fun h => lt_of_le_of_ne h.1 h.2)
    exact List.Pairwise.sublist (List.take_sublist cnt _) hlt

/-- A labourer snapshot with `start = 100` for the queue-ordering
witness. -/
def lW3 : Labourer := { id := "w3", attrs := [("start", 100)] }

/-- Three queued tasks of `lW3` with distinct `greenfield` values,
stored out of order. -/
def tasksW3 : List Task :=
  [{ task_id := "c", labourer_id := "w3", greenfield := 30 },
   { task_id := "a", labourer_id := "w3", greenfield := 10 },
   { task_id := "b", labourer_id := "w3", greenfield := 20 }]

/-- Witness for C3: on a concrete queue with distinct `greenfield`
values the first two served tasks are strictly ascending. -/
theorem get_next_for_labourer_ordered_witness :
    ((queuedTasksForLabourer tasksW3 lW3).take 2).Sorted
      (fun a b => a.greenfield < b.greenfield) :=
  (get_next_for_labourer_ordered tasksW3 lW3 2).2.2.2.2 (by decide)

/-- Claim C6 counterexample: an unclosed task of the labourer with
`expired <= greenfield < invoked` (so inside the band the claim says is
scanned) that `get_expired_tasks_for_labourer` does not return — the
code queries between `start` and `expired`, not between `expired` and
`invoked`. -/
theorem get_expired_tasks_misses_claimed_band :
    regSample.get_attr "expired" ≤ taskC6.greenfield ∧
    taskC6.greenfield < regSample.get_attr "invoked" ∧
    taskC6.closed_at = none ∧
    taskC6.labourer_id = regSample.id ∧
    get_expired_tasks_for_labourer [taskC6] regSample = [] := by decide

/-- Claim C6 (amended): the set of tasks scanned by
`get_expired_tasks_for_labourer` is exactly the tasks of the labourer
with `start <= greenfield <= expired` and `closed_at` unset. -/
theorem get_expired_tasks_mem_iff (tasks : List Task) (l : Labourer) (t : Task) :
    t ∈ get_expired_tasks_for_labourer tasks l ↔
      t ∈ tasks ∧ t.labourer_id = l.id ∧ l.get_attr "start" ≤ t.greenfield ∧
        t.greenfield ≤ l.get_attr "expired" ∧ t.closed_at = none := by
  have hperm : List.Perm (get_expired_tasks_for_labourer tasks l)
      (tasks.filter (fun t => t.labourer_id == l.id &&
        decide (l.get_attr "start" ≤ t.greenfield) &&
        decide (t.greenfield ≤ l.get_attr "expired") && t.closed_at.isNone)) :=
    List.perm_insertionSort gfLe _
  rw [hperm.mem_iff, List.mem_filter]
  simp [Bool.and_eq_true, beq_iff_eq, Option.isNone_iff_eq_none, and_assoc]

/-- A successful `get_task_by_id` lookup returns a row of the table
carrying the requested `task_id`. -/
theorem getTaskById_spec (tasks : List Task) (tid : String) (t : Task)
    (h : getTaskById tasks (some tid) = some t) : t ∈ tasks ∧ t.task_id = tid := by
  have hmem : t ∈ tasks.filter (fun u => some tid == some u.task_id) :=
    List.mem_of_mem_head? (by simpa [getTaskById] using h)
  rcases List.mem_filter.mp hmem with ⟨h1, h2⟩
  exact ⟨h1, ((by simpa using h2 : tid = t.task_id)).symm⟩

/-- A put-by-key always leaves the put row present in the table. -/
theorem putByTaskId_mem (table : List Task) (row : Task) : row ∈ putByTaskId table row := by
  unfold putByTaskId
  by_cases h : table.any (fun u => u.task_id == row.task_id) = true
  · rw [if_pos h]
    rcases List.any_eq_true.mp h with ⟨u, hu, hpu⟩
    exact List.mem_map.mpr ⟨u, hu, by rw [if_pos hpu]⟩
  · rw [if_neg h]
    exact List.mem_append_right _ (by simp)

/-- Claim C8 counterexample: a task closed as completed by `close_task`
has `completed = 1` but no `completed_at`, so `archive_task` derives the
status suffix from the absent `completed_at` and writes
`labourer_id + "_0"`, not `labourer_id + "_" + completed` = `..._1` as
claimed. -/
theorem archive_status_uses_completed_at :
    close_task [t8base] "t8" "lambda1" 500 true = [taskC8] ∧
    taskC8.completed = some 1 ∧
    taskC8.completed_at = none ∧
    (archRow taskC8).labourer_id_task_status = some "lambda1_0" ∧
    archive_task { tasks := [taskC8] } "t8"
      = .ok ({ tasks := [], closed_tasks := [archRow taskC8] },
          [StoreOp.putClosed (archRow taskC8), StoreOp.deleteTask "lambda1" "t8"]) ∧
    "lambda1_0" ≠ "lambda1_" ++ toString (1 : Int) :=
  ⟨by decide, rfl, rfl, by decide, by rfl, by decide⟩

/-- Claim C8 (amended): `archive_task` writes the full task row —
extended with `labourer_id_task_status` equal to
`labourer_id + "_" + (1 if completed_at is set and non-zero else 0)` —
into the archive table strictly before deleting the row from the hot
table; afterwards the task is absent from the hot store and present in
the archive with otherwise identical field values. -/
theorem archive_task_moves (st : TMState) (tid : String) (t : Task)
    (hfind : getTaskById st.tasks (some tid) = some t)
    (huniq : ∀ u ∈ st.tasks, u.task_id = t.task_id → u.labourer_id = t.labourer_id) :
    ∃ st', archive_task st tid
        = .ok (st', [StoreOp.putClosed (archRow t),
                     StoreOp.deleteTask t.labourer_id t.task_id]) ∧
      getTaskById st'.tasks (some tid) = none ∧
      archRow t ∈ st'.closed_tasks ∧
      (archRow t).task_id = t.task_id ∧
      (archRow t).labourer_id = t.labourer_id ∧
      (archRow t).created_at = t.created_at ∧
      (archRow t).greenfield = t.greenfield ∧
      (archRow t).attempts = t.attempts ∧
      (archRow t).closed_at = t.closed_at ∧
      (archRow t).completed = t.completed ∧
      (archRow t).completed_at = t.completed_at ∧
      (archRow t).payload = t.payload ∧
      (archRow t).labourer_id_task_status
        = some (t.labourer_id ++ "_" ++ toString (completedAtFlag t.completed_at)) := by
  have htid := (getTaskById_spec st.tasks tid t hfind).2
  refine ⟨{ st with
      closed_tasks := putByTaskId st.closed_tasks (archRow t),
      tasks := st.tasks.filter (fun u =>
        !(u.labourer_id == t.labourer_id && u.task_id == t.task_id)) },
    ?_, ?_, putByTaskId_mem _ _, rfl, rfl, rfl, rfl, rfl, rfl, rfl, rfl, rfl, rfl⟩
  · simp [archive_task, hfind]
  · suffices hnil : (st.tasks.filter (fun u =>
        !(u.labourer_id == t.labourer_id && u.task_id == t.task_id))).filter
          (fun u => some tid == some u.task_id) = [] by
      show getTaskById _ (some tid) = none
      simp only [getTaskById]
      rw [hnil]
      rfl
    apply List.filter_eq_nil_iff.mpr
    intro u hu hbeq
    rcases List.mem_filter.mp hu with ⟨humem, hne⟩
    have h0 : tid = u.task_id := by simpa using hbeq
    have h1 : u.task_id = t.task_id := h0.symm.trans htid.symm
    have h2 : u.labourer_id = t.labourer_id := huniq u humem h1
    simp [h1, h2] at hne

/-- Witness for C8 (amended) at the concrete closed task `taskC8`. -/
theorem archive_task_moves_witness :
    ∃ st', archive_task { tasks := [taskC8] } "t8"
        = .ok (st', [StoreOp.putClosed (archRow taskC8),
                     StoreOp.deleteTask taskC8.labourer_id taskC8.task_id]) ∧
      getTaskById st'.tasks (some "t8") = none ∧
      archRow taskC8 ∈ st'.closed_tasks ∧
      (archRow taskC8).task_id = taskC8.task_id ∧
      (archRow taskC8).labourer_id = taskC8.labourer_id ∧
      (archRow taskC8).created_at = taskC8.created_at ∧
      (archRow taskC8).greenfield = taskC8.greenfield ∧
      (archRow taskC8).attempts = taskC8.attempts ∧
      (archRow taskC8).closed_at = taskC8.closed_at ∧
      (archRow taskC8).completed = taskC8.completed ∧
      (archRow taskC8).completed_at = taskC8.completed_at ∧
      (archRow taskC8).payload = taskC8.payload ∧
      (archRow taskC8).labourer_id_task_status
        = some (taskC8.labourer_id ++ "_" ++ toString (completedAtFlag taskC8.completed_at)) :=
  archive_task_moves { tasks := [taskC8] } "t8" taskC8 (by rfl) (by decide)

/-- Claim C9 counterexample: archiving a task_id that is absent from the
hot store raises (`AttributeError` from `task.get` on `None`) rather
than returning normally. -/
theorem archive_task_on_missing_task_errors :
    archive_task stEmpty "already_archived" = .error .attributeError := by rfl

/-- Claim C9 (amended): calling `archive_task` on a `task_id` that is no
longer present in the hot store raises an error (the attribute access on
the `None` lookup result), so it neither returns normally nor writes any
archive row. -/
theorem archive_task_missing_raises (st : TMState) (tid : String)
    (h : getTaskById st.tasks (some tid) = none) :
    archive_task st tid = .error .attributeError := by
  simp [archive_task, h]

/-- Witness for C9 (amended) on the empty hot store. -/
theorem archive_task_missing_raises_witness :
    archive_task stEmpty "t1" = .error .attributeError :=
  archive_task_missing_raises stEmpty "t1" (by rfl)

/-- `math.ceil(a / b)` is at least 1 when both arguments are positive. -/
theorem one_le_ceilDiv (a b : Int) (hb : 0 < b) (ha : 0 < a) : 1 ≤ ceilDiv a b := by
  unfold ceilDiv
  rw [Int.fdiv_eq_ediv _ hb.le]
  have hlt : (-a) / b < 0 := (Int.ediv_lt_iff_lt_mul hb).mpr (by omega)
  omega

/-- `math.ceil(a / b) <= q` whenever `a <= q * b` and `b` is positive. -/
theorem ceilDiv_le (a b q : Int) (hb : 0 < b) (h : a ≤ q * b) : ceilDiv a b ≤ q := by
  unfold ceilDiv
  rw [Int.fdiv_eq_ediv _ hb.le]
  have hge : -q ≤ (-a) / b :=
    (Int.le_ediv_iff_mul_le hb).mpr (by rw [neg_mul]; omega)
  omega

/-- Claim C7: with desired wait `w = max_duration * delay`,
`calculate_greenfield_for_retry_task_with_delay` returns `now + w`
whenever `w` exceeds `queue_length * average_duration` (and in
particular whenever the queue is empty); otherwise it returns the
`greenfield` of the queued task at ascending position
`ceil(w / average_duration)` minus 1, inserting the retried task just
ahead of it. -/
theorem calculate_greenfield_retry_placement (tasks : List Task) (l : Labourer)
    (now : Int) (task : Task) (delay : Int) :
    (l.max_duration * delay
        > get_length_of_queue_for_labourer tasks l * l.get_attr "average_duration" →
      calculate_greenfield_for_retry_task_with_delay tasks l now task delay
        = now + l.max_duration * delay) ∧
    (get_length_of_queue_for_labourer tasks l = 0 →
      calculate_greenfield_for_retry_task_with_delay tasks l now task delay
        = now + l.max_duration * delay) ∧
    (0 < l.get_attr "average_duration" → 0 < l.max_duration * delay →
      l.max_duration * delay
        ≤ get_length_of_queue_for_labourer tasks l * l.get_attr "average_duration" →
      ∃ target, (queuedTasksForLabourer tasks l)[(ceilDiv (l.max_duration * delay)
          (l.get_attr "average_duration")).toNat - 1]? = some target ∧
        calculate_greenfield_for_retry_task_with_delay tasks l now task delay
          = target.greenfield - 1) := by
  refine ⟨?_, ?_, ?_⟩
  · intro h
    simp only [calculate_greenfield_for_retry_task_with_delay]
    rw [if_pos h]
  · intro h0
    have hq : queuedTasksForLabourer tasks l = [] := by
      have hlen : (queuedTasksForLabourer tasks l).length = 0 := by
        have := h0
        unfold get_length_of_queue_for_labourer at this
        exact_mod_cast this
      exact List.length_eq_zero.mp hlen
    simp [calculate_greenfield_for_retry_task_with_delay,
      get_queued_task_for_labourer_in_position, get_length_of_queue_for_labourer, hq]
  · intro ha hw hle
    have hq : l.max_duration * delay
        ≤ ((queuedTasksForLabourer tasks l).length : Int) * l.get_attr "average_duration" := by
      simpa [get_length_of_queue_for_labourer] using hle
    have h1 : 1 ≤ ceilDiv (l.max_duration * delay) (l.get_attr "average_duration") :=
      one_le_ceilDiv _ _ ha hw
    have h2 : ceilDiv (l.max_duration * delay) (l.get_attr "average_duration")
        ≤ ((queuedTasksForLabourer tasks l).length : Int) :=
      ceilDiv_le _ _ _ ha hq
    have hidx : (ceilDiv (l.max_duration * delay) (l.get_attr "average_duration")).toNat - 1
        < (queuedTasksForLabourer tasks l).length := by omega
    refine ⟨(queuedTasksForLabourer tasks l).get ⟨_, hidx⟩,
      by rw [List.getElem?_eq_getElem hidx]; rfl, ?_⟩
    have hngt : ¬ (l.max_duration * delay
        > get_length_of_queue_for_labourer tasks l * l.get_attr "average_duration") :=
      not_lt.mpr hle
    simp only [calculate_greenfield_for_retry_task_with_delay]
    rw [if_neg hngt]
    simp only [get_queued_task_for_labourer_in_position]
    rw [if_neg (by omega : ¬ ceilDiv (l.max_duration * delay)
      (l.get_attr "average_duration") < 1)]
    rw [List.getElem?_eq_getElem hidx]
    rfl

/-- A labourer with `start = 1000`, `max_duration = 90` and an average
task duration of `60`, for the retry-placement witness. -/
def lW7 : Labourer :=
  { id := "w7", max_duration := 90, attrs := [("start", 1000), ("average_duration", 60)] }

/-- Five queued tasks of `lW7` with ascending `greenfield` values. -/
def tasksW7 : List Task :=
  [{ task_id := "q1", labourer_id := "w7", greenfield := 10 },
   { task_id := "q2", labourer_id := "w7", greenfield := 20 },
   { task_id := "q3", labourer_id := "w7", greenfield := 30 },
   { task_id := "q4", labourer_id := "w7", greenfield := 40 },
   { task_id := "q5", labourer_id := "w7", greenfield := 50 }]

/-- Witness for C7: desired wait `90 = 90 * 1`, average duration `60`
and a five-task queue land the retry just ahead of the task at position
`ceil(90/60) = 2`. -/
theorem calculate_greenfield_retry_placement_witness :
    ∃ target, (queuedTasksForLabourer tasksW7 lW7)[(ceilDiv (lW7.max_duration * 1)
        (lW7.get_attr "average_duration")).toNat - 1]? = some target ∧
      calculate_greenfield_for_retry_task_with_delay tasksW7 lW7 500 t8base 1
        = target.greenfield - 1 :=
  (calculate_greenfield_retry_placement tasksW7 lW7 500 t8base 1).2.2
    (by decide) (by decide) (by decide)

end Sosw
